import Mathlib

/-!
Shallow embedding of the Memorial Video AI internal QA review gallery
(`src/script.js` and its near-duplicate variant `src/unnamed/part_000`).

The client keeps five pieces of mutable session state (`photoOrder`,
`originalOrder`, `uid`, `reviewToken`, `hasUnsavedChanges`) plus a handful of
DOM-visible flags (button enablement, status text, error display).  We embed
that state as a structure, every event handler as a pure state transformer
parameterised by the outcome of its network calls, and the list of outbound
network requests issued by a handler as an explicit effect log.
-/

namespace InternalReview

/-- A JavaScript value, as far as the `data.order` field of the custom-order
document is concerned.  `undef` models `undefined` (missing field); numbers are
modelled as integers (the code never produces a fractional or NaN order
field). -/
inductive JsValue where
  | undef
  | nullv
  | boolv (b : Bool)
  | numv (n : Int)
  | strv (s : String)
  | arrv (l : List String)
deriving DecidableEq, Repr

/-- JavaScript truthiness of a `JsValue`.  Note an array is always truthy,
even when empty; `undefined`, `null`, `false`, `0` and `""` are falsy. -/
def JsValue.truthy : JsValue → Bool
  | .undef => false
  | .nullv => false
  | .boolv b => b
  | .numv n => n != 0
  | .strv s => s != ""
  | .arrv _ => true

/-- Coerce a `JsValue` to a list of photo keys.  The code only ever stores an
array in `photoOrder`; non-array truthy values do not occur under the server
contract and are collapsed to `[]` here. -/
def JsValue.toList : JsValue → List String
  | .arrv l => l
  | _ => []

/-- Model of `Array.prototype.splice(i, 1)`: the (optional) removed element together
with the remaining list. -/
def spliceRemove1 (l : List α) (i : Nat) : Option α × List α :=
  (l[i]?, l.take i ++ l.drop (i + 1))

/-- Model of `Array.prototype.splice(i, 0, x)`: insert `x` before position `i`
(clamped to the length, as `splice` clamps its start argument). -/
def spliceInsert (l : List α) (i : Nat) (x : α) : List α :=
  l.take i ++ x :: l.drop i

/-- The session state of the review page: the two key lists, the credentials
parsed from the URL, the dirty flag, and the DOM-visible flags the handlers
touch. -/
structure SessionState where
  photoOrder : List String
  originalOrder : List String
  uid : Option String
  reviewToken : Option String
  hasUnsavedChanges : Bool
  saveOrderBtnDisabled : Bool
  approveBtnDisabled : Bool
  rejectBtnDisabled : Bool
  saveStatusText : String
  saveStatusClass : String
  errorShown : Bool
  errorTitle : String
  errorDetail : String
  confirmShown : Bool
deriving DecidableEq, Repr

/-- One outbound network request, recorded in the effect log of a handler. -/
inductive NetCall where
  | customOrderRead (uid : Option String)
  | manifestRead (uid : Option String)
  | saveOrderPost (uid reviewToken : Option String) (photo_order : List String)
  | reviewGatePost (uid reviewToken : Option String) (action : String) (reason : Option String)
deriving DecidableEq, Repr

/-- Handler `markAsChanged()`: set the dirty flag, enable the save control, show the
"Unsaved changes" status. -/
def markAsChanged (st : SessionState) : SessionState :=
  { st with
    hasUnsavedChanges := true
    saveOrderBtnDisabled := false
    saveStatusText := "Unsaved changes"
    saveStatusClass := "save-status" }

/-- The `onEnd` drag handler of `initializeSortable`: when the old and new
indices differ, splice the moved item out at `oldIndex`, splice it back in at
`newIndex`, and mark the session changed.  (The `none` branch of the removal
is unreachable for the in-range indices Sortable reports; JavaScript would
splice `undefined` into the array there.) -/
def onEnd (oldIndex newIndex : Nat) (st : SessionState) : SessionState :=
  if oldIndex != newIndex then
    match spliceRemove1 st.photoOrder oldIndex with
    | (some movedItem, rest) =>
        markAsChanged { st with photoOrder := spliceInsert rest newIndex movedItem }
    | (none, rest) =>
        markAsChanged { st with photoOrder := rest }
  else st

/-- A concrete state used to witness the theorems at sample inputs. -/
def sampleState : SessionState where
  photoOrder := ["orders/u1/final/01-05(001)_a.jpg", "orders/u1/final/06-10(002)_b.jpg",
    "orders/u1/final/11-15(003)_c.jpg"]
  originalOrder := ["orders/u1/final/01-05(001)_a.jpg", "orders/u1/final/06-10(002)_b.jpg",
    "orders/u1/final/11-15(003)_c.jpg"]
  uid := some "u1"
  reviewToken := some "tok"
  hasUnsavedChanges := false
  saveOrderBtnDisabled := true
  approveBtnDisabled := false
  rejectBtnDisabled := false
  saveStatusText := ""
  saveStatusClass := ""
  errorShown := false
  errorTitle := ""
  errorDetail := ""
  confirmShown := false

end InternalReview


namespace InternalReview

/-- Outcome of the `fetch` + `response.json()` pair for the custom-order read
(`GET .../metadata/{uid}/custom_order.json`). -/
inductive CustomOrderOutcome where
  | netError
  | notOk (status : Nat)
  | okBadJson
  | okJson (updated_at : Option String) (order : JsValue)
deriving DecidableEq, Repr

/-- A record of the manifest document.  `final_key := none` models a missing
(or `undefined`/`null`) field. -/
structure ManifestEntry where
  final_key : Option String
deriving DecidableEq, Repr

/-- Outcome of the `fetch` + `response.json()` pair for the manifest read
(`GET .../metadata/{uid}/final_filenames.json`). -/
inductive ManifestOutcome where
  | netError
  | notOk (status : Nat)
  | okBadJson
  | okJson (manifest : List ManifestEntry)
deriving DecidableEq, Repr

/-- The value `loadExistingOrder()` resolves to: `data.order` on an OK parsed
response, JavaScript `null` on a non-OK response or on any thrown error
(network failure or JSON parse failure, both caught by its `try`). -/
def loadExistingOrderVal : CustomOrderOutcome → JsValue
  | .okJson _ order => order
  | _ => JsValue.nullv

/-- Function `loadExistingOrder()` as a state-independent call: its resolved value plus
the single network request it issues. -/
def loadExistingOrder (st : SessionState) (co : CustomOrderOutcome) :
    JsValue × List NetCall :=
  (loadExistingOrderVal co, [NetCall.customOrderRead st.uid])

/-- Model of `String.prototype.endsWith(suffix)` over the character lists. -/
def jsEndsWith (s suffix : String) : Bool :=
  suffix.data.isSuffixOf s.data

/-- The truthiness test `entry.final_key && !entry.final_key.endsWith('.ready')`
of the manifest filter. -/
def entryKeep (e : ManifestEntry) : Bool :=
  match e.final_key with
  | some s => s != "" && !(jsEndsWith s ".ready")
  | none => false

/-- Model of `String.prototype.split('/')` over the character list: the groups of
characters between the slashes (a faithful model of `split` with a
single-character separator). -/
def splitSlash : List Char → List (List Char)
  | [] => [[]]
  | c :: cs =>
      if c = '/' then [] :: splitSlash cs
      else
        match splitSlash cs with
        | [] => [[c]]
        | g :: gs => (c :: g) :: gs

/-- Model of `key.split('/').pop()`: the filename segment after the last slash. -/
def filenameSegment (s : String) : String :=
  String.mk ((splitSlash s.data).getLastD [])

/-- The sort comparator of `loadPhotos`: ascending by
`fileA.localeCompare(fileB)` on the filename segments.  `localeCompare` is
environment-defined, so it enters the model as the parameter
`lc : String → String → Int`; JavaScript keeps `a` before `b` when the
comparator result is `≤ 0`. -/
def sortLe (lc : String → String → Int) (a b : String) : Bool :=
  lc (filenameSegment a) (filenameSegment b) ≤ 0

/-- The manifest-derivation pipeline of `loadPhotos`: filter to truthy,
non-`.ready` keys, project the keys, and sort by filename segment.
`Array.prototype.sort` (stable per ES2019) is modelled by stable
`List.mergeSort`. -/
def photoEntriesOf (lc : String → String → Int) (manifest : List ManifestEntry) :
    List String :=
  ((manifest.filter entryKeep).map (fun e => e.final_key.getD "")).mergeSort (sortLe lc)

/-- The tail of `loadPhotos` shared by both branches: snapshot `originalOrder`
from the current `photoOrder` and disable the save control. -/
def finishLoad (st : SessionState) : SessionState :=
  { st with originalOrder := st.photoOrder, saveOrderBtnDisabled := true }

/-- The manifest branch of `loadPhotos` (taken when no truthy custom order was
found): a non-OK response throws `Failed to fetch manifest: {status}`, a
network or parse failure propagates as a thrown error, and an OK parsed
manifest populates `photoOrder` via `photoEntriesOf`. -/
def manifestBranch (lc : String → String → Int) (mo : ManifestOutcome)
    (st : SessionState) : Except String SessionState :=
  match mo with
  | .netError => Except.error "TypeError: Failed to fetch"
  | .notOk status => Except.error ("Failed to fetch manifest: " ++ toString status)
  | .okBadJson => Except.error "SyntaxError: Unexpected token"
  | .okJson manifest =>
      Except.ok (finishLoad { st with photoOrder := photoEntriesOf lc manifest })

/-- Function `loadPhotos()`: try the custom order first; a truthy result becomes
`photoOrder` directly, otherwise fall through to the manifest branch.  Returns
the new state (or the thrown error) together with the network calls issued. -/
def loadPhotos (lc : String → String → Int) (co : CustomOrderOutcome)
    (mo : ManifestOutcome) (st : SessionState) :
    Except String SessionState × List NetCall :=
  let (existingOrder, calls) := loadExistingOrder st co
  if existingOrder.truthy then
    (Except.ok (finishLoad { st with photoOrder := existingOrder.toList }), calls)
  else
    (manifestBranch lc mo st, calls ++ [NetCall.manifestRead st.uid])

/-- Helper `showError(title, detail)`: switch the page to the error display; the
detail line is only overwritten when `detail` is truthy. -/
def showError (st : SessionState) (title detail : String) : SessionState :=
  { st with
    errorShown := true
    errorTitle := title
    errorDetail := if detail != "" then detail else st.errorDetail }

/-- Truthiness of `urlParams.get(name)`: `null` (absent) and `""` are falsy. -/
def paramTruthy : Option String → Bool
  | some s => s != ""
  | none => false

/-- The state of the page before the `DOMContentLoaded` handler runs. -/
def initialState : SessionState where
  photoOrder := []
  originalOrder := []
  uid := none
  reviewToken := none
  hasUnsavedChanges := false
  saveOrderBtnDisabled := false
  approveBtnDisabled := false
  rejectBtnDisabled := false
  saveStatusText := ""
  saveStatusClass := ""
  errorShown := false
  errorTitle := ""
  errorDetail := ""
  confirmShown := false

/-- The `DOMContentLoaded` handler: parse `uid` and `token` from the URL; if
either is falsy show the fixed invalid-link error and stop (no network);
otherwise run `loadPhotos`, turning a thrown load error into the
failed-to-load error display. -/
def bootstrap (lc : String → String → Int) (urlUid urlToken : Option String)
    (co : CustomOrderOutcome) (mo : ManifestOutcome) :
    SessionState × List NetCall :=
  let st := { initialState with uid := urlUid, reviewToken := urlToken }
  if !paramTruthy urlUid || !paramTruthy urlToken then
    (showError st "Invalid review link"
      "Missing order ID or review token. Please use the link from your email.", [])
  else
    match loadPhotos lc co mo st with
    | (Except.ok st1, calls) => (st1, calls)
    | (Except.error msg, calls) => (showError st "Failed to load photos" msg, calls)

end InternalReview

namespace InternalReview

/-- Outcome of one of the POST calls (`saveOrder`, approve, reject).
`notOk` carries the parsed `error` field of the error body when the body
parsed and had one (`.catch(() => ({}))` makes a missing body look like a
field-less object, which is `none` here); `okBadJson` is a 2xx response whose
body fails to parse, which throws from `response.json()`. -/
inductive PostOutcome where
  | netError
  | notOk (status : Nat) (errorField : Option String)
  | okBadJson
  | okJson
deriving DecidableEq, Repr

/-- Whether a POST outcome reaches the success continuation (2xx and the body
parses); every other outcome lands in the `catch` block. -/
def PostOutcome.succeeds : PostOutcome → Bool
  | .okJson => true
  | _ => false

/-- Expression `error.error || defaultMsg`: use the error field when it is
truthy, else synthesize a message from the HTTP status. -/
def errMessage (status : Nat) (errorField : Option String) : String :=
  match errorField with
  | some s => if s != "" then s else "Server error: " ++ toString status
  | none => "Server error: " ++ toString status

/-- Handler `saveOrder()`: disable the save control and show the saving status, issue
the POST with the full current `photoOrder`; on success clear the dirty flag
and re-snapshot `originalOrder`; on any failure show the failed status and
re-enable the save control. -/
def saveOrder (o : PostOutcome) (st : SessionState) : SessionState × List NetCall :=
  let st0 := { st with
    saveOrderBtnDisabled := true
    saveStatusText := "Saving..."
    saveStatusClass := "save-status saving" }
  let call := NetCall.saveOrderPost st.uid st.reviewToken st.photoOrder
  if o.succeeds then
    ({ st0 with
        hasUnsavedChanges := false
        originalOrder := st0.photoOrder
        saveStatusText := "Saved ✓"
        saveStatusClass := "save-status saved" }, [call])
  else
    ({ st0 with
        saveStatusText := "Save failed!"
        saveStatusClass := "save-status error"
        saveOrderBtnDisabled := false }, [call])

/-- Helper `disableAllActions()`: disable every action control and clear the dirty
flag (so the navigation-away warning no longer fires). -/
def disableAllActions (st : SessionState) : SessionState :=
  { st with
    saveOrderBtnDisabled := true
    approveBtnDisabled := true
    rejectBtnDisabled := true
    hasUnsavedChanges := false }

/-- Handler `approveOrder()` of `src/script.js`: when dirty, the operator is asked
whether to save first (`confirmSave`); then the approve POST is issued; on
success the confirmation is shown and all actions are disabled; on failure the
approve control is re-enabled. -/
def approveOrder (confirmSave : Bool) (so : PostOutcome) (go : PostOutcome)
    (st : SessionState) : SessionState × List NetCall :=
  let (st1, calls1) :=
    if st.hasUnsavedChanges then
      if confirmSave then saveOrder so st else (st, [])
    else (st, [])
  let st2 := { st1 with approveBtnDisabled := true }
  let call := NetCall.reviewGatePost st2.uid st2.reviewToken "approve" none
  if go.succeeds then
    (disableAllActions { st2 with confirmShown := true }, calls1 ++ [call])
  else
    ({ st2 with approveBtnDisabled := false }, calls1 ++ [call])

/-- Model of `String.prototype.trim()`: strip leading and trailing whitespace
(modelled over the character list with `Char.isWhitespace`). -/
def jsTrim (s : String) : String :=
  String.mk (((s.data.dropWhile Char.isWhitespace).reverse.dropWhile
    Char.isWhitespace).reverse)

/-- Handler `submitRejection()` of `src/script.js`: trim the reason; an empty trimmed
reason is refused client-side with no network call and no state change;
otherwise disable the reject control and issue the reject POST, mirroring
approve's success/failure handling. -/
def submitRejection (reasonRaw : String) (go : PostOutcome)
    (st : SessionState) : SessionState × List NetCall :=
  let reason := jsTrim reasonRaw
  if reason == "" then (st, [])
  else
    let st2 := { st with rejectBtnDisabled := true }
    let call := NetCall.reviewGatePost st2.uid st2.reviewToken "reject" (some reason)
    if go.succeeds then
      (disableAllActions { st2 with confirmShown := true }, [call])
    else
      ({ st2 with rejectBtnDisabled := false }, [call])

/-- The API Gateway base URL of `src/unnamed/part_000`. -/
def API_BASE_URL : String :=
  "https://w8i78lu05m.execute-api.us-east-2.amazonaws.com/prod"

/-- Template-literal interpolation of a possibly-`null` string. -/
def jsInterp : Option String → String
  | some s => s
  | none => "null"

/-- Handler `pauseTimer()` of `src/unnamed/part_000`: an immediate full-page
navigation; the function returns the untouched state and the target URL. -/
def pauseTimer (st : SessionState) : SessionState × String :=
  (st, API_BASE_URL ++ "/pause/" ++ jsInterp st.reviewToken)

/-- Handler `extendTimer(minutes)` of `src/unnamed/part_000`: an immediate full-page
navigation carrying the duration parameter. -/
def extendTimer (minutes : Int) (st : SessionState) : SessionState × String :=
  (st, API_BASE_URL ++ "/extend/" ++ jsInterp st.reviewToken
        ++ "?minutes=" ++ toString minutes)

end InternalReview

namespace InternalReview

/-- One operator-driven event after the initial load: a completed drag, a
save click, an approve click (with the save-first answer and the outcomes of
the inner save and the approve POST), or a rejection submission. -/
inductive Ev where
  | drag (i j : Nat)
  | save (o : PostOutcome)
  | approve (confirmSave : Bool) (so go : PostOutcome)
  | reject (reason : String) (go : PostOutcome)
deriving DecidableEq, Repr

/-- The state transition of one event (projecting away the network log). -/
def stepEv (st : SessionState) : Ev → SessionState
  | .drag i j => onEnd i j st
  | .save o => (saveOrder o st).1
  | .approve c so go => (approveOrder c so go st).1
  | .reject r go => (submitRejection r go st).1

/-- Ghost history flag "PhotoOrder has been mutated since the last successful
save": a position-changing drag sets it; a successful save (standalone or the
save-first inside approve) clears it; nothing else touches it. -/
def mutatedSinceSave (st : SessionState) (g : Bool) : Ev → Bool
  | .drag i j => if i != j then true else g
  | .save o => if o.succeeds then false else g
  | .approve c so _ => if st.hasUnsavedChanges && c && so.succeeds then false else g
  | .reject _ _ => g

/-- Run a trace of events carrying the `mutatedSinceSave` ghost flag. -/
def runMut : SessionState × Bool → List Ev → SessionState × Bool
  | p, [] => p
  | (st, g), e :: es => runMut (stepEv st e, mutatedSinceSave st g e) es

/-- The `mutatedSinceSave` ghost amended for the terminal transitions: the
success of an approve or reject POST runs `disableAllActions`, which makes the
session read-only, so the amended history flag is also cleared there. -/
def mutatedSinceSaveTerm (st : SessionState) (g : Bool) : Ev → Bool
  | .drag i j => if i != j then true else g
  | .save o => if o.succeeds then false else g
  | .approve c so go =>
      if go.succeeds then false
      else if st.hasUnsavedChanges && c && so.succeeds then false else g
  | .reject r go => if jsTrim r != "" && go.succeeds then false else g

/-- Run a trace of events carrying the amended ghost flag. -/
def runMutTerm : SessionState × Bool → List Ev → SessionState × Bool
  | p, [] => p
  | (st, g), e :: es => runMutTerm (stepEv st e, mutatedSinceSaveTerm st g e) es

/-- Three-way lexicographic comparison of character lists by code point. -/
def cmpChars : List Char → List Char → Int
  | [], [] => 0
  | [], _ :: _ => -1
  | _ :: _, [] => 1
  | a :: as, b :: bs =>
      if a < b then -1 else if b < a then 1 else cmpChars as bs

/-- A sample `localeCompare` model for witnesses: the code-point three-way
comparison (a correct `localeCompare` for the root locale on ASCII keys). -/
def lcStd (a b : String) : Int :=
  cmpChars a.data b.data

end InternalReview
namespace InternalReview

/-- The manifest of the spec's end-to-end scenario, plus an empty-key entry
and a missing-key entry: one reviewable key per path, one `.ready` entry, and
two excluded degenerate entries. -/
def sampleManifest : List ManifestEntry :=
  [{ final_key := some "a/01-1.jpg" }, { final_key := some "b/02-1.jpg" },
   { final_key := some "x/y.ready" }, { final_key := some "" },
   { final_key := none }]

end InternalReview


namespace InternalReview

/-- Equation `take i ++ drop (i+1) = eraseIdx i`: the removal half of the drag
handler's splice is an index erasure. -/
theorem spliceRemove1_eq (l : List α) (i : Nat) :
    spliceRemove1 l i = (l[i]?, l.eraseIdx i) := by
  simp [spliceRemove1, List.eraseIdx_eq_take_drop_succ]

/-- For an in-range index, the insertion half of the splice is `insertIdx`. -/
theorem spliceInsert_eq (l : List α) (i : Nat) (x : α) (h : i ≤ l.length) :
    spliceInsert l i x = l.insertIdx i x := by
  induction l generalizing i with
  | nil => simp_all [spliceInsert]
  | cons a l ih =>
      cases i with
      | zero => simp [spliceInsert]
      | succ n =>
          simp only [List.length_cons, Nat.succ_le_succ_iff] at h
          simp [spliceInsert, List.insertIdx_succ_cons, ← ih n h]

end InternalReview

namespace InternalReview

/-- C1: for in-range indices `i ≠ j`, the drag-end handler replaces
`photoOrder` by the prior list with the element at `i` removed and reinserted
at `j` (so the moved element sits at `j` and the remaining elements keep their
relative order), and sets the dirty flag; for `i = j` the state is unchanged. -/
theorem drag_end_moves_element (st : SessionState) (i j : Nat)
    (hi : i < st.photoOrder.length) (hj : j < st.photoOrder.length) :
    (i ≠ j →
      (onEnd i j st).photoOrder =
          (st.photoOrder.eraseIdx i).insertIdx j st.photoOrder[i] ∧
      (onEnd i j st).photoOrder.eraseIdx j = st.photoOrder.eraseIdx i ∧
      (onEnd i j st).photoOrder[j]? = some st.photoOrder[i] ∧
      (onEnd i j st).photoOrder.length = st.photoOrder.length ∧
      (onEnd i j st).hasUnsavedChanges = true) ∧
    (i = j → onEnd i j st = st) := by
  constructor
  · intro hne
    have hlrest : (st.photoOrder.eraseIdx i).length = st.photoOrder.length - 1 :=
      List.length_eraseIdx_of_lt hi
    have hjle : j ≤ (st.photoOrder.eraseIdx i).length := by omega
    have honEnd : (onEnd i j st).photoOrder =
        (st.photoOrder.eraseIdx i).insertIdx j st.photoOrder[i] := by
      simp only [onEnd, spliceRemove1_eq, List.getElem?_eq_getElem hi,
        bne_iff_ne, if_pos hne]
      exact spliceInsert_eq _ _ _ hjle
    have hlen : ((st.photoOrder.eraseIdx i).insertIdx j st.photoOrder[i]).length =
        st.photoOrder.length := by
      rw [List.length_insertIdx _ _ hjle]; omega
    refine ⟨honEnd, ?_, ?_, ?_, ?_⟩
    · rw [honEnd, List.eraseIdx_insertIdx]
    · rw [honEnd, List.getElem?_eq_getElem (by omega)]
      rw [List.getElem_insertIdx_self _ _ _ hjle]
    · rw [honEnd, hlen]
    · simp only [onEnd, spliceRemove1_eq, List.getElem?_eq_getElem hi,
        bne_iff_ne, if_pos hne, markAsChanged]
  · intro heq
    simp [onEnd, heq]

/-- Witness for `drag_end_moves_element` at a concrete three-element state,
dragging index 0 to index 2. -/
theorem drag_end_moves_element_witness :
    (onEnd 0 2 sampleState).photoOrder =
        ["orders/u1/final/06-10(002)_b.jpg", "orders/u1/final/11-15(003)_c.jpg",
          "orders/u1/final/01-05(001)_a.jpg"] ∧
    (onEnd 0 2 sampleState).hasUnsavedChanges = true ∧
    onEnd 1 1 sampleState = sampleState := by
  have h := drag_end_moves_element sampleState 0 2 (by decide) (by decide)
  have h' := drag_end_moves_element sampleState 1 1 (by decide) (by decide)
  obtain ⟨hmv, -⟩ := h
  obtain ⟨he, -, -, -, hd⟩ := hmv (by decide)
  exact ⟨by rw [he]; rfl, hd, h'.2 rfl⟩

end InternalReview
namespace InternalReview

/-- C2: when `saveOrder` is invoked on a dirty session, a successful call
(2xx whose body parses) clears the dirty flag and re-snapshots `originalOrder`
to an equal-valued copy of the unchanged `photoOrder`; a failed call (non-2xx
or a thrown error, including a 2xx body that fails to parse) leaves the dirty
flag true, leaves both lists unchanged, and re-enables the save control. -/
theorem save_order_success_failure (st : SessionState) (o : PostOutcome)
    (hdirty : st.hasUnsavedChanges = true) :
    (o.succeeds = true →
      (saveOrder o st).1.hasUnsavedChanges = false ∧
      (saveOrder o st).1.originalOrder = (saveOrder o st).1.photoOrder ∧
      (saveOrder o st).1.photoOrder = st.photoOrder) ∧
    (o.succeeds = false →
      (saveOrder o st).1.hasUnsavedChanges = true ∧
      (saveOrder o st).1.photoOrder = st.photoOrder ∧
      (saveOrder o st).1.originalOrder = st.originalOrder ∧
      (saveOrder o st).1.saveOrderBtnDisabled = false) := by
  constructor
  · intro h
    simp [saveOrder, h]
  · intro h
    simp [saveOrder, h, hdirty]

/-- Witness for `save_order_success_failure` on a dirty sample state, for both
a successful and a failed outcome. -/
theorem save_order_success_failure_witness :
    (saveOrder PostOutcome.okJson (markAsChanged sampleState)).1.hasUnsavedChanges = false ∧
    (saveOrder PostOutcome.netError (markAsChanged sampleState)).1.hasUnsavedChanges = true ∧
    (saveOrder PostOutcome.netError (markAsChanged sampleState)).1.saveOrderBtnDisabled = false := by
  have h1 := save_order_success_failure (markAsChanged sampleState) PostOutcome.okJson (by decide)
  have h2 := save_order_success_failure (markAsChanged sampleState) PostOutcome.netError (by decide)
  obtain ⟨ha, -, -⟩ := h1.1 (by decide)
  obtain ⟨hb, -, -, hc⟩ := h2.2 (by decide)
  exact ⟨ha, hb, hc⟩

/-- C4: when the custom-order read yields a saved order list, `loadPhotos`
sets `photoOrder` to exactly that list (and snapshots it), issues only the
custom-order read, and never fetches the manifest — whatever the manifest
outcome would have been. -/
theorem custom_order_short_circuits (lc : String → String → Int)
    (co : CustomOrderOutcome) (mo : ManifestOutcome) (st : SessionState)
    (l : List String) (hco : loadExistingOrderVal co = JsValue.arrv l) :
    (loadPhotos lc co mo st).1 =
        Except.ok (finishLoad { st with photoOrder := l }) ∧
    (∃ st', (loadPhotos lc co mo st).1 = Except.ok st' ∧ st'.photoOrder = l) ∧
    (loadPhotos lc co mo st).2 = [NetCall.customOrderRead st.uid] ∧
    (∀ u, NetCall.manifestRead u ∉ (loadPhotos lc co mo st).2) := by
  have h1 : (loadPhotos lc co mo st).1 =
      Except.ok (finishLoad { st with photoOrder := l }) := by
    simp [loadPhotos, loadExistingOrder, hco, JsValue.truthy, JsValue.toList]
  have h2 : (loadPhotos lc co mo st).2 = [NetCall.customOrderRead st.uid] := by
    simp [loadPhotos, loadExistingOrder, hco, JsValue.truthy]
  refine ⟨h1, ⟨_, h1, rfl⟩, h2, ?_⟩
  intro u
  rw [h2]
  simp

/-- Witness for `custom_order_short_circuits`: a saved two-element order is
adopted verbatim and the manifest stays unfetched. -/
theorem custom_order_short_circuits_witness :
    (loadPhotos lcStd
        (CustomOrderOutcome.okJson (some "2024-01-01")
          (JsValue.arrv ["k/b.jpg", "k/a.jpg"]))
        (ManifestOutcome.okJson []) sampleState).1 =
      Except.ok (finishLoad { sampleState with photoOrder := ["k/b.jpg", "k/a.jpg"] }) ∧
    (∀ u, NetCall.manifestRead u ∉
      (loadPhotos lcStd
        (CustomOrderOutcome.okJson (some "2024-01-01")
          (JsValue.arrv ["k/b.jpg", "k/a.jpg"]))
        (ManifestOutcome.okJson []) sampleState).2) := by
  have h := custom_order_short_circuits lcStd
    (CustomOrderOutcome.okJson (some "2024-01-01")
      (JsValue.arrv ["k/b.jpg", "k/a.jpg"]))
    (ManifestOutcome.okJson []) sampleState ["k/b.jpg", "k/a.jpg"] rfl
  exact ⟨h.1, h.2.2.2⟩

/-- C5: every failure mode of the custom-order read (network error, non-200,
unparseable body) makes `loadExistingOrder` resolve to `null` without raising,
after which resolution is exactly the manifest branch — in particular it
succeeds silently whenever the manifest read succeeds, so the custom-read
failure is never surfaced. -/
theorem custom_read_failure_falls_back (lc : String → String → Int)
    (mo : ManifestOutcome) (st : SessionState) (co : CustomOrderOutcome)
    (h : co = CustomOrderOutcome.netError ∨ (∃ s, co = CustomOrderOutcome.notOk s) ∨
      co = CustomOrderOutcome.okBadJson) :
    loadExistingOrderVal co = JsValue.nullv ∧
    (loadPhotos lc co mo st).1 = manifestBranch lc mo st ∧
    (loadPhotos lc co mo st).2 =
      [NetCall.customOrderRead st.uid, NetCall.manifestRead st.uid] ∧
    (∀ m, mo = ManifestOutcome.okJson m →
      (loadPhotos lc co mo st).1 =
        Except.ok (finishLoad { st with photoOrder := photoEntriesOf lc m })) := by
  have hval : loadExistingOrderVal co = JsValue.nullv := by
    rcases h with rfl | ⟨s, rfl⟩ | rfl <;> rfl
  refine ⟨hval, ?_, ?_, ?_⟩
  · simp [loadPhotos, loadExistingOrder, hval, JsValue.truthy]
  · simp [loadPhotos, loadExistingOrder, hval, JsValue.truthy]
  · intro m hm
    subst hm
    simp [loadPhotos, loadExistingOrder, hval, JsValue.truthy, manifestBranch]

/-- Witness for `custom_read_failure_falls_back`: a 404 on the custom order
falls back to an empty-manifest derivation with no surfaced error. -/
theorem custom_read_failure_falls_back_witness :
    loadExistingOrderVal (CustomOrderOutcome.notOk 404) = JsValue.nullv ∧
    (loadPhotos lcStd (CustomOrderOutcome.notOk 404)
        (ManifestOutcome.okJson []) sampleState).1 =
      Except.ok (finishLoad { sampleState with photoOrder := photoEntriesOf lcStd [] }) := by
  have h := custom_read_failure_falls_back lcStd (ManifestOutcome.okJson [])
    sampleState (CustomOrderOutcome.notOk 404) (Or.inr (Or.inl ⟨404, rfl⟩))
  exact ⟨h.1, h.2.2.2 [] rfl⟩

/-- C7: when the `uid` or `token` query parameter is absent or empty,
bootstrap shows the fixed invalid-link error and issues no network call at
all. -/
theorem missing_params_no_network (lc : String → String → Int)
    (co : CustomOrderOutcome) (mo : ManifestOutcome) (u t : Option String)
    (h : paramTruthy u = false ∨ paramTruthy t = false) :
    (bootstrap lc u t co mo).1.errorShown = true ∧
    (bootstrap lc u t co mo).1.errorTitle = "Invalid review link" ∧
    (bootstrap lc u t co mo).1.errorDetail =
      "Missing order ID or review token. Please use the link from your email." ∧
    (bootstrap lc u t co mo).2 = [] := by
  have hcond : (!paramTruthy u || !paramTruthy t) = true := by
    rcases h with h | h <;> simp [h]
  simp [bootstrap, hcond, showError]

/-- Witness for `missing_params_no_network`: an entry URL with an empty `uid`
and a present token. -/
theorem missing_params_no_network_witness :
    (bootstrap lcStd (some "") (some "tok") (CustomOrderOutcome.notOk 404)
        (ManifestOutcome.okJson [])).1.errorShown = true ∧
    (bootstrap lcStd (some "") (some "tok") (CustomOrderOutcome.notOk 404)
        (ManifestOutcome.okJson [])).2 = [] := by
  have h := missing_params_no_network lcStd (CustomOrderOutcome.notOk 404)
    (ManifestOutcome.okJson []) (some "") (some "tok") (Or.inl (by decide))
  exact ⟨h.1, h.2.2.2⟩

/-- C8: a rejection whose reason trims to the empty string issues no network
call and returns the session state unchanged. -/
theorem empty_reason_rejection_refused (st : SessionState) (go : PostOutcome)
    (reason : String) (h : jsTrim reason = "") :
    submitRejection reason go st = (st, []) := by
  simp [submitRejection, h]

/-- Witness for `empty_reason_rejection_refused` on a whitespace-only
reason. -/
theorem empty_reason_rejection_refused_witness :
    submitRejection "   " PostOutcome.okJson sampleState = (sampleState, []) :=
  empty_reason_rejection_refused sampleState PostOutcome.okJson "   " (by decide)

/-- C9: `pauseTimer` and `extendTimer` of the redirect-based variant mutate no
session state; they only produce the workflow-endpoint navigation target,
with the minutes parameter in the extend case. -/
theorem pause_extend_no_mutation (st : SessionState) (minutes : Int) :
    (pauseTimer st).1 = st ∧
    (extendTimer minutes st).1 = st ∧
    (pauseTimer st).2 = API_BASE_URL ++ "/pause/" ++ jsInterp st.reviewToken ∧
    (extendTimer minutes st).2 =
      API_BASE_URL ++ "/extend/" ++ jsInterp st.reviewToken
        ++ "?minutes=" ++ toString minutes :=
  ⟨rfl, rfl, rfl, rfl⟩

/-- C10: a parsed 200 custom-order body whose `order` field is falsy (missing,
`null`, `false`, `0`, or `""`) makes resolution fall back to the manifest
branch with the manifest fetched, while a present empty list is truthy and is
adopted as an empty `photoOrder` with the manifest never fetched. -/
theorem falsy_order_field_falls_back (lc : String → String → Int)
    (st : SessionState) (ts : Option String) (v : JsValue)
    (hfalsy : v.truthy = false) (mo : ManifestOutcome) :
    ((loadPhotos lc (CustomOrderOutcome.okJson ts v) mo st).1 =
        manifestBranch lc mo st ∧
      (loadPhotos lc (CustomOrderOutcome.okJson ts v) mo st).2 =
        [NetCall.customOrderRead st.uid, NetCall.manifestRead st.uid]) ∧
    ((loadPhotos lc (CustomOrderOutcome.okJson ts (JsValue.arrv [])) mo st).1 =
        Except.ok (finishLoad { st with photoOrder := [] }) ∧
      (loadPhotos lc (CustomOrderOutcome.okJson ts (JsValue.arrv [])) mo st).2 =
        [NetCall.customOrderRead st.uid]) := by
  refine ⟨⟨?_, ?_⟩, ?_, ?_⟩
  · simp [loadPhotos, loadExistingOrder, loadExistingOrderVal, hfalsy]
  · simp [loadPhotos, loadExistingOrder, loadExistingOrderVal, hfalsy]
  · simp [loadPhotos, loadExistingOrder, loadExistingOrderVal, JsValue.truthy,
      JsValue.toList]
  · simp [loadPhotos, loadExistingOrder, loadExistingOrderVal, JsValue.truthy]

/-- Witness for `falsy_order_field_falls_back` with a `null` order field. -/
theorem falsy_order_field_falls_back_witness :
    (loadPhotos lcStd (CustomOrderOutcome.okJson (some "2024-01-01") JsValue.nullv)
        (ManifestOutcome.okJson []) sampleState).1 =
      manifestBranch lcStd (ManifestOutcome.okJson []) sampleState ∧
    (loadPhotos lcStd
        (CustomOrderOutcome.okJson (some "2024-01-01") (JsValue.arrv []))
        (ManifestOutcome.okJson []) sampleState).1 =
      Except.ok (finishLoad { sampleState with photoOrder := [] }) := by
  have h := falsy_order_field_falls_back lcStd sampleState (some "2024-01-01")
    JsValue.nullv (by decide) (ManifestOutcome.okJson [])
  exact ⟨h.1.1, h.2.1⟩

end InternalReview

namespace InternalReview

/-- Comparison `cmpChars` is antisymmetric as a three-way comparison. -/
theorem cmpChars_swap (as : List Char) : ∀ bs, cmpChars as bs = -cmpChars bs as := by
  induction as with
  | nil => intro bs; cases bs <;> simp [cmpChars]
  | cons a as ih =>
      intro bs
      cases bs with
      | nil => simp [cmpChars]
      | cons b bs =>
          simp only [cmpChars]
          rcases lt_trichotomy a b with h | h | h
          · rw [if_pos h, if_neg (asymm h), if_pos h]
          · subst h
            simp [lt_irrefl, ih bs]
          · rw [if_neg (asymm h), if_pos h, if_pos h]
            rfl

/-- Nonpositivity of `cmpChars` is transitive. -/
theorem cmpChars_trans_le (as : List Char) :
    ∀ bs cs, cmpChars as bs ≤ 0 → cmpChars bs cs ≤ 0 → cmpChars as cs ≤ 0 := by
  induction as with
  | nil => intro bs cs _ _; cases cs <;> simp [cmpChars]
  | cons a as ih =>
      intro bs cs h1 h2
      cases bs with
      | nil => simp [cmpChars] at h1
      | cons b bs =>
          cases cs with
          | nil => simp [cmpChars] at h2
          | cons c cs =>
              simp only [cmpChars] at h1 h2 ⊢
              rcases lt_trichotomy a b with hab | hab | hab
              · rcases lt_trichotomy b c with hbc | hbc | hbc
                · simp [lt_trans hab hbc]
                · subst hbc; simp [hab]
                · rw [if_neg (asymm hbc), if_pos hbc] at h2; omega
              · subst hab
                rw [if_neg (lt_irrefl a), if_neg (lt_irrefl a)] at h1
                rcases lt_trichotomy a c with hac | hac | hac
                · simp [hac]
                · subst hac
                  rw [if_neg (lt_irrefl a), if_neg (lt_irrefl a)] at h2 ⊢
                  exact ih bs cs h1 h2
                · rw [if_neg (asymm hac), if_pos hac] at h2; omega
              · rw [if_neg (asymm hab), if_pos hab] at h1; omega

/-- The `sortLe` relation induced by the sample comparator is transitive. -/
theorem sortLe_lcStd_trans (a b c : String)
    (h1 : sortLe lcStd a b = true) (h2 : sortLe lcStd b c = true) :
    sortLe lcStd a c = true := by
  simp only [sortLe, lcStd, decide_eq_true_eq] at h1 h2 ⊢
  exact cmpChars_trans_le _ _ _ h1 h2

/-- The `sortLe` relation induced by the sample comparator is total. -/
theorem sortLe_lcStd_total (a b : String) :
    (sortLe lcStd a b || sortLe lcStd b a) = true := by
  simp only [sortLe, lcStd, Bool.or_eq_true, decide_eq_true_eq]
  have h := cmpChars_swap (filenameSegment a).data (filenameSegment b).data
  omega

end InternalReview

namespace InternalReview

/-- C3: with no custom order, resolution populates `photoOrder` with
`photoEntriesOf`, which (for any consistent `localeCompare` comparator) is a
permutation of the keys of the manifest entries that have a non-empty key not
ending in `.ready`; every resolved key is non-empty, not `.ready`, and comes
from the manifest; every qualifying manifest key is resolved; the result is
sorted ascending by filename segment under the comparator, and the sort is
stable. -/
theorem manifest_derivation_spec (lc : String → String → Int)
    (manifest : List ManifestEntry) (st : SessionState) (co : CustomOrderOutcome)
    (hco : (loadExistingOrderVal co).truthy = false)
    (htrans : ∀ a b c, sortLe lc a b = true → sortLe lc b c = true →
      sortLe lc a c = true)
    (htotal : ∀ a b, (sortLe lc a b || sortLe lc b a) = true) :
    (loadPhotos lc co (ManifestOutcome.okJson manifest) st).1 =
      Except.ok (finishLoad { st with photoOrder := photoEntriesOf lc manifest }) ∧
    (photoEntriesOf lc manifest).Perm
      ((manifest.filter entryKeep).map (fun e => e.final_key.getD "")) ∧
    (∀ k ∈ photoEntriesOf lc manifest,
        k ≠ "" ∧ jsEndsWith k ".ready" = false ∧
        ∃ e ∈ manifest, e.final_key = some k) ∧
    (∀ e ∈ manifest, entryKeep e = true →
        e.final_key.getD "" ∈ photoEntriesOf lc manifest) ∧
    (photoEntriesOf lc manifest).Pairwise (fun a b => sortLe lc a b = true) ∧
    (∀ a b : String, sortLe lc a b = true →
        [a, b].Sublist
          ((manifest.filter entryKeep).map (fun e => e.final_key.getD "")) →
        [a, b].Sublist (photoEntriesOf lc manifest)) := by
  refine ⟨?_, ?_, ?_, ?_, ?_, ?_⟩
  · simp [loadPhotos, loadExistingOrder, hco, manifestBranch]
  · exact List.mergeSort_perm _ _
  · intro k hk
    rw [photoEntriesOf, List.mem_mergeSort, List.mem_map] at hk
    obtain ⟨e, he, hkey⟩ := hk
    rw [List.mem_filter] at he
    obtain ⟨hmem, hkeep⟩ := he
    rcases hef : e.final_key with - | s
    · rw [entryKeep, hef] at hkeep
      exact absurd hkeep (by simp)
    · rw [entryKeep, hef] at hkeep
      rw [hef] at hkey
      simp only [Option.getD_some] at hkey
      subst hkey
      simp only [Bool.and_eq_true, bne_iff_ne, ne_eq, Bool.not_eq_true'] at hkeep
      exact ⟨hkeep.1, hkeep.2, e, hmem, hef⟩
  · intro e he hkeep
    rw [photoEntriesOf, List.mem_mergeSort, List.mem_map]
    exact ⟨e, List.mem_filter.mpr ⟨he, hkeep⟩, rfl⟩
  · exact List.sorted_mergeSort htrans htotal _
  · intro a b hab hsub
    exact List.pair_sublist_mergeSort htrans htotal hab hsub

/-- Witness for `manifest_derivation_spec` on the spec's end-to-end manifest
with the code-point comparator: the `.ready`, empty-key and missing-key
entries are dropped and the two photo keys come out sorted by filename
segment. -/
theorem manifest_derivation_spec_witness :
    (loadPhotos lcStd (CustomOrderOutcome.notOk 404)
        (ManifestOutcome.okJson sampleManifest) sampleState).1 =
      Except.ok (finishLoad
        { sampleState with photoOrder := photoEntriesOf lcStd sampleManifest }) ∧
    photoEntriesOf lcStd sampleManifest = ["a/01-1.jpg", "b/02-1.jpg"] := by
  have h := manifest_derivation_spec lcStd sampleManifest sampleState
    (CustomOrderOutcome.notOk 404) (by decide) sortLe_lcStd_trans sortLe_lcStd_total
  refine ⟨h.1, ?_⟩
  have hfm : (sampleManifest.filter entryKeep).map (fun e => e.final_key.getD "") =
      ["a/01-1.jpg", "b/02-1.jpg"] := by decide
  rw [photoEntriesOf, hfm]
  exact List.mergeSort_of_sorted (by decide)

end InternalReview

namespace InternalReview

/-- Counterexample to C6 as stated: starting clean, drag 0→1 (an unsaved
mutation), then approve with the save-first prompt declined and the approve
POST succeeding.  `disableAllActions` clears the dirty flag even though the
mutation was never saved (`photoOrder` still differs from `originalOrder`),
so an operation other than a successful save cleared the flag. -/
theorem dirty_flag_cleared_without_save :
    (runMut (sampleState, false)
        [Ev.drag 0 1, Ev.approve false PostOutcome.okJson PostOutcome.okJson]).2
      = true ∧
    (runMut (sampleState, false)
        [Ev.drag 0 1, Ev.approve false PostOutcome.okJson PostOutcome.okJson]).1.hasUnsavedChanges
      = false ∧
    (runMut (sampleState, false)
        [Ev.drag 0 1, Ev.approve false PostOutcome.okJson PostOutcome.okJson]).1.photoOrder
      ≠ (runMut (sampleState, false)
        [Ev.drag 0 1, Ev.approve false PostOutcome.okJson PostOutcome.okJson]).1.originalOrder := by
  refine ⟨rfl, rfl, by decide⟩

/-- One step preserves the amended invariant: if the amended
mutated-since-save ghost implies the dirty flag before an event, it still
does after it. -/
theorem stepEv_ghost_preserved (st : SessionState) (g : Bool) (e : Ev)
    (h : g = true → st.hasUnsavedChanges = true) :
    mutatedSinceSaveTerm st g e = true → (stepEv st e).hasUnsavedChanges = true := by
  cases e with
  | drag i j =>
      simp only [mutatedSinceSaveTerm, stepEv]
      by_cases hij : (i != j) = true
      · intro _
        simp only [onEnd, hij, if_true]
        rcases hsp : spliceRemove1 st.photoOrder i with ⟨mv, rest⟩
        cases mv <;> simp [markAsChanged]
      · rw [if_neg hij, onEnd, if_neg hij]
        exact h
  | save o =>
      simp only [mutatedSinceSaveTerm, stepEv]
      by_cases ho : o.succeeds = true
      · rw [if_pos ho]
        intro hfalse
        exact absurd hfalse (by simp)
      · rw [if_neg ho]
        intro hg
        simp only [saveOrder, ho, Bool.false_eq_true, if_false]
        exact h hg
  | approve c so go =>
      simp only [mutatedSinceSaveTerm, stepEv]
      by_cases hgo : go.succeeds = true
      · rw [if_pos hgo]
        intro hfalse
        exact absurd hfalse (by simp)
      · rw [if_neg hgo]
        intro hg
        by_cases hdirty : st.hasUnsavedChanges = true
        · by_cases hc : c = true
          · by_cases hso : so.succeeds = true
            · rw [if_pos (by simp [hdirty, hc, hso])] at hg
              exact absurd hg (by simp)
            · rw [if_neg (by simp [hso])] at hg
              simp [approveOrder, hdirty, hc, hgo, saveOrder, hso]
          · rw [if_neg (by simp [hc])] at hg
            simp [approveOrder, hdirty, hc, hgo]
        · rw [if_neg (by simp [hdirty])] at hg
          exact absurd (h hg) hdirty
  | reject r go =>
      simp only [mutatedSinceSaveTerm, stepEv]
      by_cases hcl : (jsTrim r != "" && go.succeeds) = true
      · rw [if_pos hcl]
        intro hfalse
        exact absurd hfalse (by simp)
      · rw [if_neg hcl]
        intro hg
        by_cases hr : (jsTrim r == "") = true
        · simp only [submitRejection, hr, if_true]
          exact h hg
        · have hgo : go.succeeds = false := by
            simp only [Bool.and_eq_true, bne_iff_ne, ne_eq] at hcl
            simp only [beq_iff_eq] at hr
            cases hsucc : go.succeeds
            · rfl
            · exact absurd ⟨hr, hsucc⟩ hcl
          simp only [submitRejection, hr, Bool.false_eq_true, if_false, hgo]
          exact h hg

/-- C6 amended: along every event trace, whenever `photoOrder` has been
mutated since the last successful save, the dirty flag is true — where,
beyond a successful save, the terminal success of an approve or reject call
(`disableAllActions`, which makes the session read-only) is the one other
operation that closes the "unsaved mutations" window by clearing the flag. -/
theorem dirty_flag_invariant_amended (evs : List Ev) :
    ∀ (st : SessionState) (g : Bool), (g = true → st.hasUnsavedChanges = true) →
    ((runMutTerm (st, g) evs).2 = true →
      (runMutTerm (st, g) evs).1.hasUnsavedChanges = true) := by
  induction evs with
  | nil =>
      intro st g h
      simpa [runMutTerm] using h
  | cons e es ih =>
      intro st g h
      simp only [runMutTerm]
      exact ih _ _ (stepEv_ghost_preserved st g e h)

/-- Witness for `dirty_flag_invariant_amended`: after a drag and a failed
save, the unsaved mutation is still flagged. -/
theorem dirty_flag_invariant_amended_witness :
    (runMutTerm (sampleState, false)
        [Ev.drag 0 1, Ev.save PostOutcome.netError]).1.hasUnsavedChanges = true :=
  dirty_flag_invariant_amended [Ev.drag 0 1, Ev.save PostOutcome.netError]
    sampleState false (by decide) (by decide)

end InternalReview
